import Mathlib

/-!
# AOFly: segmented append-only log manager (`main.go`)

A shallow embedding of `NewAOF`, `AOF.rotate`, `AOF.createSegmentFile` and
`AOF.cleanup`.  The Go code mutates an `*AOF` in place and talks to the
operating system through the `os` package; here the receiver and the file
system are passed explicitly and every function returns the updated values
together with its Go `error` (`none` is `nil`).

Go's `int` is taken to be 64 bits wide: arithmetic on it wraps (`wrapInt`).
-/

namespace AOFly

/-! ## Errors -/

/-- Go `error` values that occur in `main.go`: the sentinel errors of package
`os` that the code can meet, and `fmt.Errorf("<msg>: %w", err)`. -/
inductive Err where
  /-- `os.ErrInvalid`: a method of `*os.File` was called on a nil receiver. -/
  | ErrInvalid
  /-- `os.ErrClosed`: the file has been closed already. -/
  | ErrClosed
  /-- `os.ErrNotExist`: the path names no file. -/
  | ErrNotExist
  /-- The path exists and is not a directory. -/
  | ErrNotDir
  /-- Any other failure of the underlying system call (permissions, I/O, ...). -/
  | ErrIO
  /-- `fmt.Errorf(msg + ": %w", cause)`. -/
  | Errorf (msg : String) (cause : Err)
  deriving DecidableEq, Repr

/-- `os.IsNotExist`: it inspects the error itself and does not look through
`fmt.Errorf` wrapping. -/
def IsNotExist : Err → Bool
  | .ErrNotExist => true
  | _ => false

/-! ## The operating system -/

/-- An `os.File`: the descriptor it owns and the name it was opened with. -/
structure File where
  fd : Nat
  name : String
  deriving DecidableEq, Repr

/-- Calls into package `os`, in the order they are made. -/
inductive OsCall where
  | MkdirAll (path : String)
  | OpenFile (path : String)
  /-- `(*os.File).Close`; `none` is a nil receiver. -/
  | Close (file : Option File)
  | Remove (path : String)
  deriving DecidableEq, Repr

/-- State of the file system and of the process's descriptor table, with the
environment's failures: `mkdirFault`, `openFault`, `removeFault` and
`closeFault` say for which path or descriptor the system call fails. -/
structure FS where
  /-- Existing directories. -/
  dirs : List String
  /-- Existing regular files. -/
  files : List String
  /-- Descriptors that are open. -/
  openFds : List Nat
  /-- Next descriptor to hand out. -/
  nextFd : Nat
  /-- Every call made so far, oldest first. -/
  trace : List OsCall
  mkdirFault : String → Bool
  openFault : String → Bool
  removeFault : String → Bool
  closeFault : Nat → Bool

/-- `os.MkdirAll(path, os.ModePerm)`: nothing to do when the directory exists;
an error when the path is a regular file or the creation fails. -/
def MkdirAll (path : String) (fs : FS) : FS × Option Err :=
  let fs := { fs with trace := fs.trace ++ [OsCall.MkdirAll path] }
  if path ∈ fs.dirs then (fs, none)
  else if path ∈ fs.files then (fs, some Err.ErrNotDir)
  else if fs.mkdirFault path then (fs, some Err.ErrIO)
  else ({ fs with dirs := path :: fs.dirs }, none)

/-- `os.OpenFile(name, os.O_CREATE|os.O_WRONLY|os.O_APPEND, 0644)`: opens the
file, creating it when it does not exist; an existing file is kept. -/
def OpenFile (name : String) (fs : FS) : FS × Except Err File :=
  let fs := { fs with trace := fs.trace ++ [OsCall.OpenFile name] }
  if fs.openFault name then (fs, .error Err.ErrIO)
  else
    ({ fs with
        files := if name ∈ fs.files then fs.files else name :: fs.files
        openFds := fs.nextFd :: fs.openFds
        nextFd := fs.nextFd + 1 },
      .ok { fd := fs.nextFd, name := name })

/-- `(*os.File).Close`: `ErrInvalid` on a nil receiver, `ErrClosed` on a file
that is closed already; otherwise the descriptor is released, also when the
system call reports a failure. -/
def Close (file : Option File) (fs : FS) : FS × Option Err :=
  let fs := { fs with trace := fs.trace ++ [OsCall.Close file] }
  match file with
  | none => (fs, some Err.ErrInvalid)
  | some f =>
    if f.fd ∈ fs.openFds then
      ({ fs with openFds := fs.openFds.filter (fun d => d ≠ f.fd) },
        if fs.closeFault f.fd then some Err.ErrIO else none)
    else (fs, some Err.ErrClosed)

/-- `os.Remove(name)`: the call fails, whether or not the path exists, when
the environment says so (a path component that is not a directory or cannot
be searched, a file that may not be unlinked, a directory that is not empty);
otherwise the file is unlinked or the directory removed, and `ErrNotExist` is
the answer when the path names nothing. -/
def Remove (name : String) (fs : FS) : FS × Option Err :=
  let fs := { fs with trace := fs.trace ++ [OsCall.Remove name] }
  if fs.removeFault name then (fs, some Err.ErrIO)
  else if name ∈ fs.files ∨ name ∈ fs.dirs then
    ({ fs with
        files := fs.files.filter (fun p => p ≠ name)
        dirs := fs.dirs.filter (fun p => p ≠ name) }, none)
  else (fs, some Err.ErrNotExist)

/-! ## Machine integers -/

/-- Smallest value of Go's `int` (64 bits). -/
def minInt : Int := -(2 ^ 63)

/-- Largest value of Go's `int` (64 bits). -/
def maxInt : Int := 2 ^ 63 - 1

/-- Two's-complement wrap-around of a 64-bit `int`. -/
def wrapInt (x : Int) : Int := (x + 2 ^ 63) % 2 ^ 64 - 2 ^ 63

/-! ## The log manager -/

/-- The `AOF` struct (its mutex, which no function locks, is left out). -/
structure AOF where
  directory : String
  segmentSize : Int
  totalSegments : Int
  currentFile : Option File
  currentSize : Int
  currentSeq : Int
  deriving DecidableEq, Repr

/-- The name `fmt.Sprintf("%s/segment_%d.log", directory, seq)`. -/
def segmentPath (directory : String) (seq : Int) : String :=
  directory ++ "/segment_" ++ toString seq ++ ".log"

/-- `AOF.createSegmentFile`. -/
def createSegmentFile (a : AOF) (seq : Int) (fs : FS) : FS × Except Err File :=
  let fileName := segmentPath a.directory seq
  match OpenFile fileName fs with
  | (fs, .error err) =>
    (fs, .error (Err.Errorf ("failed to open or create file " ++ fileName) err))
  | (fs, .ok file) => (fs, .ok file)

/-- The loop of `AOF.cleanup`, `for seq := seq; seq < minSeq; seq++`, with
`n` the number of iterations left (`minSeq - seq`). -/
def cleanupLoop (directory : String) : Nat → Int → FS → FS × Option Err
  | 0, _, fs => (fs, none)
  | n + 1, seq, fs =>
    let fileName := segmentPath directory seq
    match Remove fileName fs with
    | (fs, some err) =>
      if !IsNotExist err then
        (fs, some (Err.Errorf ("failed to remove file " ++ fileName) err))
      else cleanupLoop directory n (seq + 1) fs
    | (fs, none) => cleanupLoop directory n (seq + 1) fs

/-- The local `minSeq := a.currentSeq - a.totalSegments + 1` of `AOF.cleanup`,
computed on `int`. -/
def minSeq (a : AOF) : Int := wrapInt (a.currentSeq - a.totalSegments + 1)

/-- `AOF.cleanup`: the loop starts at `seq = 0` and runs while `seq < minSeq`,
that is `minSeq` times when `minSeq` is positive and not at all otherwise. -/
def cleanup (a : AOF) (fs : FS) : FS × Option Err :=
  cleanupLoop a.directory (minSeq a).toNat 0 fs

/-- `AOF.rotate`: the receiver is updated in place, so the updated `AOF` is
returned on every path, also with an error. -/
def rotate (a : AOF) (fs : FS) : AOF × FS × Option Err :=
  match Close a.currentFile fs with
  | (fs, some err) => (a, fs, some (Err.Errorf "failed to close current file" err))
  | (fs, none) =>
    let a := { a with currentSeq := wrapInt (a.currentSeq + 1) }
    match createSegmentFile a a.currentSeq fs with
    | (fs, .error err) =>
      (a, fs, some (Err.Errorf "failed to create new segment file" err))
    | (fs, .ok newFile) =>
      let a := { a with currentFile := some newFile }
      match cleanup a fs with
      | (fs, some err) => (a, fs, some (Err.Errorf "cleanup failed" err))
      | (fs, none) => (a, fs, none)

/-- `NewAOF`: Go's `(nil, err)` is `.error err` and `(aof, nil)` is `.ok aof`. -/
def NewAOF (directory : String) (segmentSize : Int) (totalSegments : Int) (fs : FS) :
    FS × Except Err AOF :=
  match MkdirAll directory fs with
  | (fs, some err) => (fs, .error (Err.Errorf "failed to create directory" err))
  | (fs, none) =>
    let aof : AOF :=
      { directory := directory
        segmentSize := segmentSize
        totalSegments := totalSegments
        currentFile := none
        currentSize := 0
        currentSeq := 0 }
    match rotate aof fs with
    | (_, fs, some err) =>
      (fs, .error (Err.Errorf "failed to rotate to initial segment" err))
    | (aof, fs, none) => (fs, .ok aof)

/-! ## Observations -/

/-- An empty file system on which no system call fails. -/
def emptyFS : FS :=
  { dirs := [], files := [], openFds := [], nextFd := 3, trace := []
    mkdirFault := fun _ => false, openFault := fun _ => false
    removeFault := fun _ => false, closeFault := fun _ => false }

/-- Sequence numbers of the segment files of `directory` that are on disk. -/
def segmentSeqs (directory : String) (files : List String) : Set Int :=
  {q | segmentPath directory q ∈ files}

/-- The handle is an open file on the segment with sequence number `seq`. -/
def openOn (a : AOF) (fs : FS) (seq : Int) : Prop :=
  match a.currentFile with
  | none => False
  | some f => f.name = segmentPath a.directory seq ∧ f.fd ∈ fs.openFds

instance (a : AOF) (fs : FS) (seq : Int) : Decidable (openOn a fs seq) := by
  unfold openOn; split <;> infer_instance

/-- `n` rotations in a row, all of which must succeed: the sequence numbers
they assign, oldest first, and the final state. -/
def rotateN : Nat → AOF → FS → Option (List Int × AOF × FS)
  | 0, a, fs => some ([], a, fs)
  | n + 1, a, fs =>
    match rotate a fs with
    | (a, fs, none) =>
      match rotateN n a fs with
      | some (seqs, a', fs') => some (a.currentSeq :: seqs, a', fs')
      | none => none
    | (_, _, some _) => none

/-- The sequence numbers a log has carried: the one it starts with and those
assigned by `n` rotations in a row, all of which must succeed. -/
def assignedSeqs (n : Nat) (a : AOF) (fs : FS) : Option (List Int) :=
  (rotateN n a fs).map (fun r => a.currentSeq :: r.1)

/-- The environment refuses to remove the path: `os.Remove` answers an error
other than `ErrNotExist`, whether or not the path exists. -/
def blocked (fs : FS) (path : String) : Prop :=
  fs.removeFault path = true

/-- The calls to `os.Remove` made by the first `n` iterations of the loop of
`AOF.cleanup` that starts at `seq`. -/
def removeCalls (directory : String) (seq : Int) (n : Nat) : List OsCall :=
  (List.range n).map (fun (i : Nat) => OsCall.Remove (segmentPath directory (seq + (i : Int))))

/-- Value of a decimal digit character. -/
def digitVal (c : Char) : Nat := c.toNat - 48

/-- Value of a string of decimal digits, most significant first. -/
def decimalVal (l : List Char) : Nat := l.foldl (fun acc c => 10 * acc + digitVal c) 0

/-! ## Concrete states -/

/-- A log on directory `data` with retention `totalSegments` and sequence
number `currentSeq`, whose handle is nil. -/
def logAt (totalSegments currentSeq : Int) : AOF :=
  { directory := "data", segmentSize := 100, totalSegments := totalSegments
    currentFile := none, currentSize := 0, currentSeq := currentSeq }

/-- A disk holding `files`, on which no system call fails. -/
def diskWith (files : List String) : FS :=
  { emptyFS with files := files }

/-- A disk holding `files` that refuses to remove `data/segment_1.log`. -/
def diskRefusing (files : List String) : FS :=
  { diskWith files with removeFault := fun p => p == "data/segment_1.log" }

/-- A log on directory `data` whose handle is descriptor 3, opened on the
segment `currentSeq`. -/
def openLogAt (totalSegments currentSeq : Int) : AOF :=
  { logAt totalSegments currentSeq with
    currentFile := some { fd := 3, name := segmentPath "data" currentSeq } }

/-- A disk holding directory `data` and `files`, with descriptor 3 open, on
which no system call fails. -/
def openDiskWith (files : List String) : FS :=
  { diskWith files with dirs := ["data"], openFds := [3], nextFd := 4 }

/-- As `openDiskWith`, but closing descriptor 3 reports a failure. -/
def diskFailingClose (files : List String) : FS :=
  { openDiskWith files with closeFault := fun d => d == 3 }

/-- As `openDiskWith`, but `data/segment_2.log` cannot be opened. -/
def diskFailingOpen (files : List String) : FS :=
  { openDiskWith files with openFault := fun p => p == "data/segment_2.log" }

instance (fs : FS) (path : String) : Decidable (blocked fs path) := by
  unfold blocked; infer_instance

/-! ## Segment names are injective in the sequence number -/

theorem digitVal_digitChar (k : Nat) (hk : k < 10) : digitVal (Nat.digitChar k) = k := by
  interval_cases k <;> rfl

theorem digitChar_ne_minus (k : Nat) (hk : k < 10) : Nat.digitChar k ≠ '-' := by
  interval_cases k <;> decide

theorem toDigitsCore_append (fuel : Nat) : ∀ (n : Nat) (ds : List Char),
    Nat.toDigitsCore 10 fuel n ds = Nat.toDigitsCore 10 fuel n [] ++ ds := by
  induction fuel with
  | zero => intro n ds; simp [Nat.toDigitsCore]
  | succ f ih =>
    intro n ds
    simp only [Nat.toDigitsCore]
    split
    · simp
    · rw [ih (n / 10) (_ :: ds), ih (n / 10) [_]]
      simp

theorem decimalVal_toDigitsCore (fuel : Nat) : ∀ n : Nat, n < fuel →
    decimalVal (Nat.toDigitsCore 10 fuel n []) = n := by
  induction fuel with
  | zero => intro n h; omega
  | succ f ih =>
    intro n h
    simp only [Nat.toDigitsCore]
    split
    · rename_i h0
      have hn : n < 10 := by omega
      have : n % 10 = n := Nat.mod_eq_of_lt hn
      simp [decimalVal, digitVal_digitChar n hn, this]
    · rename_i h0
      rw [toDigitsCore_append]
      have hlt : n / 10 < f := by omega
      have := ih (n / 10) hlt
      unfold decimalVal at this ⊢
      rw [List.foldl_append, this]
      simp [digitVal_digitChar (n % 10) (Nat.mod_lt _ (by decide))]
      omega

theorem toDigitsCore_digits (fuel : Nat) : ∀ (n : Nat) (ds : List Char) (c : Char),
    c ∈ Nat.toDigitsCore 10 fuel n ds → c ∈ ds ∨ ∃ k, k < 10 ∧ c = Nat.digitChar k := by
  induction fuel with
  | zero => intro n ds c h; left; simpa [Nat.toDigitsCore] using h
  | succ f ih =>
    intro n ds c h
    simp only [Nat.toDigitsCore] at h
    split at h
    · rcases List.mem_cons.1 h with h | h
      · exact Or.inr ⟨n % 10, Nat.mod_lt _ (by decide), h⟩
      · exact Or.inl h
    · rcases ih _ _ _ h with h | h
      · rcases List.mem_cons.1 h with h | h
        · exact Or.inr ⟨n % 10, Nat.mod_lt _ (by decide), h⟩
        · exact Or.inl h
      · exact Or.inr h

theorem decimalVal_repr (n : Nat) : decimalVal (Nat.repr n).data = n := by
  simp [Nat.repr, Nat.toDigits, List.asString, decimalVal_toDigitsCore]

theorem minus_not_mem_repr (n : Nat) : '-' ∉ (Nat.repr n).data := by
  intro h
  simp only [Nat.repr, Nat.toDigits, List.asString] at h
  rcases toDigitsCore_digits _ _ _ _ h with h | ⟨k, hk, h⟩
  · simp at h
  · exact digitChar_ne_minus k hk h.symm

theorem repr_injective {m n : Nat} (h : Nat.repr m = Nat.repr n) : m = n := by
  have := congrArg (fun s => decimalVal s.data) h
  simpa [decimalVal_repr] using this

theorem toString_int_injective {p q : Int} (h : toString p = toString q) : p = q := by
  cases p with
  | ofNat m =>
    cases q with
    | ofNat n =>
      have : Nat.repr m = Nat.repr n := h
      rw [repr_injective this]
    | negSucc n =>
      exfalso
      have h1 : Nat.repr m = "-" ++ Nat.repr (n + 1) := h
      apply minus_not_mem_repr m
      rw [h1]
      simp
  | negSucc m =>
    cases q with
    | ofNat n =>
      exfalso
      have h1 : "-" ++ Nat.repr (m + 1) = Nat.repr n := h
      apply minus_not_mem_repr n
      rw [← h1]
      simp
    | negSucc n =>
      have h1 : "-" ++ Nat.repr (m + 1) = "-" ++ Nat.repr (n + 1) := h
      have h2 := congrArg String.data h1
      simp only [String.data_append, List.append_cancel_left_eq] at h2
      have h3 : Nat.repr (m + 1) = Nat.repr (n + 1) := String.ext h2
      have := repr_injective h3
      have : m = n := by omega
      rw [this]

theorem segmentPath_injective (directory : String) {p q : Int}
    (h : segmentPath directory p = segmentPath directory q) : p = q := by
  unfold segmentPath at h
  have h2 := congrArg String.data h
  simp only [String.data_append, List.append_assoc, List.append_cancel_left_eq,
    List.append_cancel_right_eq] at h2
  exact toString_int_injective (String.ext h2)

/-! ## Machine integers -/

theorem wrapInt_of_range {x : Int} (h1 : minInt ≤ x) (h2 : x ≤ maxInt) : wrapInt x = x := by
  unfold wrapInt minInt maxInt at *
  omega

/-! ## `os.MkdirAll` -/

theorem MkdirAll_spec (path : String) (fs : FS) :
    (MkdirAll path fs).1.trace = fs.trace ++ [OsCall.MkdirAll path] ∧
    (MkdirAll path fs).1.files = fs.files ∧
    ((MkdirAll path fs).2 = none → path ∈ (MkdirAll path fs).1.dirs) ∧
    (∀ e, (MkdirAll path fs).2 = some e → (MkdirAll path fs).1.dirs = fs.dirs) := by
  unfold MkdirAll
  by_cases h1 : path ∈ fs.dirs
  · simp [h1]
  · by_cases h2 : path ∈ fs.files
    · simp [h1, h2]
    · cases h3 : fs.mkdirFault path <;> simp [h1, h2, h3]

/-! ## `os.Remove` -/

theorem Remove_cases (name : String) (fs : FS) :
    (fs.removeFault name = false ∧ name ∉ fs.files ∧ name ∉ fs.dirs ∧
      Remove name fs =
        ({ fs with trace := fs.trace ++ [OsCall.Remove name] }, some Err.ErrNotExist)) ∨
    (blocked fs name ∧
      Remove name fs = ({ fs with trace := fs.trace ++ [OsCall.Remove name] }, some Err.ErrIO)) ∨
    (fs.removeFault name = false ∧
      Remove name fs =
        ({ fs with
            trace := fs.trace ++ [OsCall.Remove name]
            files := fs.files.filter (fun p => p ≠ name)
            dirs := fs.dirs.filter (fun p => p ≠ name) }, none)) := by
  unfold Remove blocked
  cases hf : fs.removeFault name
  · by_cases h : name ∈ fs.files ∨ name ∈ fs.dirs
    · right; right
      simp [hf, h]
    · left
      have h1 : name ∉ fs.files := fun hm => h (Or.inl hm)
      have h2 : name ∉ fs.dirs := fun hm => h (Or.inr hm)
      simp [hf, h1, h2]
  · right; left
    simp [hf]

/-! ## The loop of `AOF.cleanup` -/

theorem removeCalls_succ (directory : String) (seq : Int) (n : Nat) :
    removeCalls directory seq (n + 1) =
      OsCall.Remove (segmentPath directory seq) :: removeCalls directory (seq + 1) n := by
  unfold removeCalls
  rw [List.range_succ_eq_map]
  simp only [List.map_cons, List.map_map, Nat.cast_zero, add_zero, List.cons.injEq, true_and]
  apply List.map_congr_left
  intro i _
  have : seq + ((i : Int) + 1) = seq + 1 + (i : Int) := by ring
  simp [this]

/-- The loop leaves the descriptor table and the environment alone. -/
theorem cleanupLoop_env (directory : String) : ∀ (n : Nat) (seq : Int) (fs : FS),
    (cleanupLoop directory n seq fs).1.openFds = fs.openFds ∧
    (cleanupLoop directory n seq fs).1.nextFd = fs.nextFd ∧
    (cleanupLoop directory n seq fs).1.removeFault = fs.removeFault ∧
    (cleanupLoop directory n seq fs).1.openFault = fs.openFault ∧
    (cleanupLoop directory n seq fs).1.closeFault = fs.closeFault ∧
    (cleanupLoop directory n seq fs).1.mkdirFault = fs.mkdirFault := by
  intro n
  induction n with
  | zero => intro seq fs; simp [cleanupLoop]
  | succ n ih =>
    intro seq fs
    rcases Remove_cases (segmentPath directory seq) fs with ⟨_, _, _, hR⟩ | ⟨_, hR⟩ | ⟨_, hR⟩
    · simp only [cleanupLoop, hR, IsNotExist]
      simpa using ih (seq + 1) _
    · simp [cleanupLoop, hR, IsNotExist]
    · simp only [cleanupLoop, hR]
      simpa using ih (seq + 1) _

/-- What the loop does: either no candidate is blocked, every candidate is
gone and the loop reports no error, or it stops at the first blocked candidate
`seq + k`, having removed the candidates before it and tried none after it. -/
theorem cleanupLoop_spec (directory : String) : ∀ (n : Nat) (seq : Int) (fs : FS),
    ((cleanupLoop directory n seq fs).2 = none ∧
      (∀ i : Nat, i < n → ¬ blocked fs (segmentPath directory (seq + i))) ∧
      (∀ p, p ∈ (cleanupLoop directory n seq fs).1.files ↔
        p ∈ fs.files ∧ ∀ i : Nat, i < n → p ≠ segmentPath directory (seq + i)) ∧
      (cleanupLoop directory n seq fs).1.trace = fs.trace ++ removeCalls directory seq n) ∨
    (∃ k : Nat, k < n ∧ blocked fs (segmentPath directory (seq + k)) ∧
      (∀ i : Nat, i < k → ¬ blocked fs (segmentPath directory (seq + i))) ∧
      (cleanupLoop directory n seq fs).2 =
        some (Err.Errorf ("failed to remove file " ++ segmentPath directory (seq + k))
          Err.ErrIO) ∧
      (∀ p, p ∈ (cleanupLoop directory n seq fs).1.files ↔
        p ∈ fs.files ∧ ∀ i : Nat, i < k → p ≠ segmentPath directory (seq + i)) ∧
      (cleanupLoop directory n seq fs).1.trace =
        fs.trace ++ removeCalls directory seq (k + 1)) := by
  intro n
  induction n with
  | zero =>
    intro seq fs
    left
    simp [cleanupLoop, removeCalls]
  | succ n ih =>
    intro seq fs
    have hshift : ∀ i : Nat, seq + 1 + (i : Int) = seq + ((i + 1 : Nat) : Int) := by
      intro i; push_cast; ring
    have hzero : ∀ {P : Int → Prop}, P seq → P (seq + ((0 : Nat) : Int)) := by
      intro P h; simpa using h
    rcases Remove_cases (segmentPath directory seq) fs with
      ⟨hf, hmem, _, hR⟩ | ⟨hb, hR⟩ | ⟨hf, hR⟩
    · -- nothing is there: `IsNotExist`, the loop goes on
      have hstep : cleanupLoop directory (n + 1) seq fs =
          cleanupLoop directory n (seq + 1)
            { fs with trace := fs.trace ++ [OsCall.Remove (segmentPath directory seq)] } := by
        simp only [cleanupLoop, hR, IsNotExist]
        rfl
      have hnb : ¬ blocked fs (segmentPath directory seq) := by
        unfold blocked; simp [hf]
      rw [hstep]
      rcases ih (seq + 1)
          { fs with trace := fs.trace ++ [OsCall.Remove (segmentPath directory seq)] } with
        ⟨h1, h2, h3, h4⟩ | ⟨k, hk, h1, h2, h3, h4, h5⟩
      · left
        refine ⟨h1, ?_, ?_, ?_⟩
        · intro i hi
          cases i with
          | zero => exact hzero (P := fun q => ¬ blocked fs (segmentPath directory q)) hnb
          | succ j =>
            have := h2 j (by omega)
            rw [hshift] at this
            exact this
        · intro p
          rw [h3]
          constructor
          · rintro ⟨hp, hq⟩
            refine ⟨hp, ?_⟩
            intro i hi
            cases i with
            | zero =>
              intro he
              have he' : p = segmentPath directory seq := by simpa using he
              exact hmem (he' ▸ hp)
            | succ j =>
              have := hq j (by omega)
              rw [hshift] at this
              exact this
          · rintro ⟨hp, hq⟩
            refine ⟨hp, ?_⟩
            intro i hi
            have := hq (i + 1) (by omega)
            rw [← hshift] at this
            exact this
        · rw [h4, removeCalls_succ]
          simp
      · right
        refine ⟨k + 1, by omega, ?_, ?_, ?_, ?_, ?_⟩
        · rw [← hshift]; exact h1
        · intro i hi
          cases i with
          | zero => exact hzero (P := fun q => ¬ blocked fs (segmentPath directory q)) hnb
          | succ j =>
            have := h2 j (by omega)
            rw [hshift] at this
            exact this
        · rw [h3, hshift]
        · intro p
          rw [h4]
          constructor
          · rintro ⟨hp, hq⟩
            refine ⟨hp, ?_⟩
            intro i hi
            cases i with
            | zero =>
              intro he
              have he' : p = segmentPath directory seq := by simpa using he
              exact hmem (he' ▸ hp)
            | succ j =>
              have := hq j (by omega)
              rw [hshift] at this
              exact this
          · rintro ⟨hp, hq⟩
            refine ⟨hp, ?_⟩
            intro i hi
            have := hq (i + 1) (by omega)
            rw [← hshift] at this
            exact this
        · rw [h5, removeCalls_succ (n := k + 1)]
          simp
    · -- the removal fails: the loop returns
      right
      refine ⟨0, by omega, by simpa using hb, by intro i hi; omega, ?_, ?_, ?_⟩
      · simp [cleanupLoop, hR, IsNotExist]
      · intro p
        simp [cleanupLoop, hR, IsNotExist]
      · rw [removeCalls_succ]
        simp [cleanupLoop, hR, IsNotExist, removeCalls]
    · -- the path is removed, the loop goes on
      have hstep : cleanupLoop directory (n + 1) seq fs =
          cleanupLoop directory n (seq + 1)
            { fs with
              trace := fs.trace ++ [OsCall.Remove (segmentPath directory seq)]
              files := fs.files.filter (fun p => p ≠ segmentPath directory seq)
              dirs := fs.dirs.filter (fun p => p ≠ segmentPath directory seq) } := by
        simp only [cleanupLoop, hR]
      have hnb : ¬ blocked fs (segmentPath directory seq) := by
        unfold blocked; simp [hf]
      have hfiles : ∀ p, p ∈ fs.files.filter (fun p => p ≠ segmentPath directory seq) ↔
          p ∈ fs.files ∧ p ≠ segmentPath directory seq := by
        intro p; simp
      rw [hstep]
      rcases ih (seq + 1)
          { fs with
            trace := fs.trace ++ [OsCall.Remove (segmentPath directory seq)]
            files := fs.files.filter (fun p => p ≠ segmentPath directory seq)
            dirs := fs.dirs.filter (fun p => p ≠ segmentPath directory seq) } with
        ⟨h1, h2, h3, h4⟩ | ⟨k, hk, h1, h2, h3, h4, h5⟩
      · left
        refine ⟨h1, ?_, ?_, ?_⟩
        · intro i hi
          cases i with
          | zero => exact hzero (P := fun q => ¬ blocked fs (segmentPath directory q)) hnb
          | succ j =>
            have := h2 j (by omega)
            rw [hshift] at this
            exact this
        · intro p
          rw [h3]
          simp only [hfiles]
          constructor
          · rintro ⟨⟨hp, hps⟩, hq⟩
            refine ⟨hp, ?_⟩
            intro i hi
            cases i with
            | zero => simpa using hps
            | succ j =>
              have := hq j (by omega)
              rw [hshift] at this
              exact this
          · rintro ⟨hp, hq⟩
            refine ⟨⟨hp, by simpa using hq 0 (by omega)⟩, ?_⟩
            intro i hi
            have := hq (i + 1) (by omega)
            rw [← hshift] at this
            exact this
        · rw [h4, removeCalls_succ]
          simp
      · right
        refine ⟨k + 1, by omega, ?_, ?_, ?_, ?_, ?_⟩
        · rw [← hshift]; exact h1
        · intro i hi
          cases i with
          | zero => exact hzero (P := fun q => ¬ blocked fs (segmentPath directory q)) hnb
          | succ j =>
            have := h2 j (by omega)
            rw [hshift] at this
            exact this
        · rw [h3, hshift]
        · intro p
          rw [h4]
          simp only [hfiles]
          constructor
          · rintro ⟨⟨hp, hps⟩, hq⟩
            refine ⟨hp, ?_⟩
            intro i hi
            cases i with
            | zero => simpa using hps
            | succ j =>
              have := hq j (by omega)
              rw [hshift] at this
              exact this
          · rintro ⟨hp, hq⟩
            refine ⟨⟨hp, by simpa using hq 0 (by omega)⟩, ?_⟩
            intro i hi
            have := hq (i + 1) (by omega)
            rw [← hshift] at this
            exact this
        · rw [h5, removeCalls_succ (n := k + 1)]
          simp

/-- The loop makes no directory. -/
theorem cleanupLoop_dirs_subset (directory : String) :
    ∀ (n : Nat) (seq : Int) (fs : FS) (p : String),
      p ∈ (cleanupLoop directory n seq fs).1.dirs → p ∈ fs.dirs := by
  intro n
  induction n with
  | zero => intro seq fs p hp; simpa [cleanupLoop] using hp
  | succ n ih =>
    intro seq fs p hp
    rcases Remove_cases (segmentPath directory seq) fs with
      ⟨_, _, _, hR⟩ | ⟨_, hR⟩ | ⟨_, hR⟩
    · have hstep : cleanupLoop directory (n + 1) seq fs =
          cleanupLoop directory n (seq + 1)
            { fs with trace := fs.trace ++ [OsCall.Remove (segmentPath directory seq)] } := by
        simp only [cleanupLoop, hR, IsNotExist]
        rfl
      rw [hstep] at hp
      have := ih (seq + 1)
        { fs with trace := fs.trace ++ [OsCall.Remove (segmentPath directory seq)] } p hp
      exact this
    · simpa [cleanupLoop, hR, IsNotExist] using hp
    · have hstep : cleanupLoop directory (n + 1) seq fs =
          cleanupLoop directory n (seq + 1)
            { fs with
              trace := fs.trace ++ [OsCall.Remove (segmentPath directory seq)]
              files := fs.files.filter (fun p => p ≠ segmentPath directory seq)
              dirs := fs.dirs.filter (fun p => p ≠ segmentPath directory seq) } := by
        simp only [cleanupLoop, hR]
      rw [hstep] at hp
      have := ih (seq + 1)
        { fs with
          trace := fs.trace ++ [OsCall.Remove (segmentPath directory seq)]
          files := fs.files.filter (fun p => p ≠ segmentPath directory seq)
          dirs := fs.dirs.filter (fun p => p ≠ segmentPath directory seq) } p hp
      exact (List.mem_filter.1 this).1

/-- After a pass without error no candidate is left among the directories
either. -/
theorem cleanupLoop_dirs (directory : String) : ∀ (n : Nat) (seq : Int) (fs : FS),
    (cleanupLoop directory n seq fs).2 = none →
    ∀ i : Nat, i < n →
      segmentPath directory (seq + (i : Int)) ∉ (cleanupLoop directory n seq fs).1.dirs := by
  intro n
  induction n with
  | zero => intro seq fs _ i hi; omega
  | succ n ih =>
    intro seq fs hok
    have hshift : ∀ i : Nat, seq + 1 + (i : Int) = seq + ((i + 1 : Nat) : Int) := by
      intro i; push_cast; ring
    have hsub := cleanupLoop_dirs_subset directory
    rcases Remove_cases (segmentPath directory seq) fs with
      ⟨_, _, hdir, hR⟩ | ⟨_, hR⟩ | ⟨_, hR⟩
    · have hstep : cleanupLoop directory (n + 1) seq fs =
          cleanupLoop directory n (seq + 1)
            { fs with trace := fs.trace ++ [OsCall.Remove (segmentPath directory seq)] } := by
        simp only [cleanupLoop, hR, IsNotExist]
        rfl
      rw [hstep] at hok ⊢
      intro i hi
      cases i with
      | zero =>
        intro hm
        exact hdir (by simpa using hsub _ _ _ _ hm)
      | succ j =>
        have := ih (seq + 1) _ hok j (by omega)
        rw [hshift] at this
        exact this
    · simp [cleanupLoop, hR, IsNotExist] at hok
    · have hstep : cleanupLoop directory (n + 1) seq fs =
          cleanupLoop directory n (seq + 1)
            { fs with
              trace := fs.trace ++ [OsCall.Remove (segmentPath directory seq)]
              files := fs.files.filter (fun p => p ≠ segmentPath directory seq)
              dirs := fs.dirs.filter (fun p => p ≠ segmentPath directory seq) } := by
        simp only [cleanupLoop, hR]
      rw [hstep] at hok ⊢
      intro i hi
      cases i with
      | zero =>
        intro hm
        have := hsub _ _ _ _ hm
        simp at this
      | succ j =>
        have := ih (seq + 1) _ hok j (by omega)
        rw [hshift] at this
        exact this

/-- When no candidate is on disk and none is blocked the loop only looks:
every `os.Remove` answers `ErrNotExist`, which the loop skips. -/
theorem cleanupLoop_absent (directory : String) : ∀ (n : Nat) (seq : Int) (fs : FS),
    (∀ i : Nat, i < n → segmentPath directory (seq + (i : Int)) ∉ fs.files ∧
      segmentPath directory (seq + (i : Int)) ∉ fs.dirs ∧
      ¬ blocked fs (segmentPath directory (seq + (i : Int)))) →
    cleanupLoop directory n seq fs =
      ({ fs with trace := fs.trace ++ removeCalls directory seq n }, none) := by
  intro n
  induction n with
  | zero => intro seq fs _; simp [cleanupLoop, removeCalls]
  | succ n ih =>
    intro seq fs h
    have h0 : segmentPath directory seq ∉ fs.files ∧ segmentPath directory seq ∉ fs.dirs ∧
        ¬ blocked fs (segmentPath directory seq) := by simpa using h 0 (by omega)
    rcases Remove_cases (segmentPath directory seq) fs with
      ⟨_, _, _, hR⟩ | ⟨hb, _⟩ | ⟨_, hR⟩
    · have hstep : cleanupLoop directory (n + 1) seq fs =
          cleanupLoop directory n (seq + 1)
            { fs with trace := fs.trace ++ [OsCall.Remove (segmentPath directory seq)] } := by
        simp only [cleanupLoop, hR, IsNotExist]
        rfl
      rw [hstep, ih (seq + 1) _ (by
        intro i hi
        have := h (i + 1) (by omega)
        have he : seq + 1 + (i : Int) = seq + ((i + 1 : Nat) : Int) := by push_cast; ring
        rw [he]
        exact this)]
      rw [removeCalls_succ]
      simp
    · exact absurd hb h0.2.2
    · have hstep : cleanupLoop directory (n + 1) seq fs =
          cleanupLoop directory n (seq + 1)
            { fs with
              trace := fs.trace ++ [OsCall.Remove (segmentPath directory seq)]
              files := fs.files.filter (fun p => p ≠ segmentPath directory seq)
              dirs := fs.dirs.filter (fun p => p ≠ segmentPath directory seq) } := by
        simp only [cleanupLoop, hR]
      have hfil : fs.files.filter (fun p => p ≠ segmentPath directory seq) = fs.files := by
        apply List.filter_eq_self.2
        intro p hp
        simp only [ne_eq, decide_not, Bool.not_eq_true', decide_eq_false_iff_not]
        intro he
        exact h0.1 (he ▸ hp)
      have hdil : fs.dirs.filter (fun p => p ≠ segmentPath directory seq) = fs.dirs := by
        apply List.filter_eq_self.2
        intro p hp
        simp only [ne_eq, decide_not, Bool.not_eq_true', decide_eq_false_iff_not]
        intro he
        exact h0.2.1 (he ▸ hp)
      rw [hstep, hfil, hdil, ih (seq + 1) _ (by
        intro i hi
        have := h (i + 1) (by omega)
        have he : seq + 1 + (i : Int) = seq + ((i + 1 : Nat) : Int) := by push_cast; ring
        rw [he]
        exact this)]
      rw [removeCalls_succ]
      simp

/-! ## `AOF.cleanup` -/

theorem forall_candidates (m : Int) (P : Int → Prop) :
    (∀ i : Nat, i < m.toNat → P (0 + (i : Int))) ↔ ∀ q : Int, 0 ≤ q → q < m → P q := by
  constructor
  · intro h q h0 hq
    have := h q.toNat (by omega)
    rwa [zero_add, Int.toNat_of_nonneg h0] at this
  · intro h i hi
    rw [zero_add]
    exact h i (by omega) (by omega)

theorem mem_removeCalls (directory : String) (n : Nat) (q : Int) :
    OsCall.Remove (segmentPath directory q) ∈ removeCalls directory 0 n ↔
      0 ≤ q ∧ q < n := by
  unfold removeCalls
  simp only [List.mem_map, List.mem_range, OsCall.Remove.injEq, zero_add]
  constructor
  · rintro ⟨i, hi, he⟩
    have := segmentPath_injective directory he
    omega
  · rintro ⟨h0, hq⟩
    exact ⟨q.toNat, by omega, by rw [Int.toNat_of_nonneg h0]⟩

/-- `cleanupLoop_spec` for the loop that `AOF.cleanup` runs, with the
candidates named by their sequence numbers `0 ≤ q < minSeq`. -/
theorem cleanup_spec (a : AOF) (fs : FS) :
    ((cleanup a fs).2 = none ∧
      (∀ q : Int, 0 ≤ q → q < minSeq a → ¬ blocked fs (segmentPath a.directory q)) ∧
      (∀ p, p ∈ (cleanup a fs).1.files ↔
        p ∈ fs.files ∧ ∀ q : Int, 0 ≤ q → q < minSeq a → p ≠ segmentPath a.directory q) ∧
      (cleanup a fs).1.trace = fs.trace ++ removeCalls a.directory 0 (minSeq a).toNat) ∨
    (∃ k : Int, 0 ≤ k ∧ k < minSeq a ∧ blocked fs (segmentPath a.directory k) ∧
      (∀ q : Int, 0 ≤ q → q < k → ¬ blocked fs (segmentPath a.directory q)) ∧
      (cleanup a fs).2 =
        some (Err.Errorf ("failed to remove file " ++ segmentPath a.directory k) Err.ErrIO) ∧
      (∀ p, p ∈ (cleanup a fs).1.files ↔
        p ∈ fs.files ∧ ∀ q : Int, 0 ≤ q → q < k → p ≠ segmentPath a.directory q) ∧
      (cleanup a fs).1.trace = fs.trace ++ removeCalls a.directory 0 (k.toNat + 1)) := by
  unfold cleanup
  rcases cleanupLoop_spec a.directory (minSeq a).toNat 0 fs with
    ⟨h1, h2, h3, h4⟩ | ⟨k, hk, h1, h2, h3, h4, h5⟩
  · left
    refine ⟨h1, ?_, ?_, h4⟩
    · exact (forall_candidates (minSeq a)
        (fun q => ¬ blocked fs (segmentPath a.directory q))).1 h2
    · intro p
      rw [h3]
      exact and_congr_right (fun _ => forall_candidates (minSeq a)
        (fun q => p ≠ segmentPath a.directory q))
  · right
    have hk' : ((k : Int)).toNat = k := Int.toNat_natCast k
    refine ⟨(k : Int), by omega, by omega, by simpa using h1, ?_, by simpa using h3, ?_, ?_⟩
    · have := (forall_candidates (k : Int)
        (fun q => ¬ blocked fs (segmentPath a.directory q))).1
      rw [hk'] at this
      exact this h2
    · intro p
      rw [h4]
      have := forall_candidates (k : Int) (fun q => p ≠ segmentPath a.directory q)
      rw [hk'] at this
      exact and_congr_right (fun _ => this)
    · rw [h5, hk']

/-! ## Retention window -/

/-- Claim C1, amended: when `activeSequence - retainedSegmentCount + 1` is
computed without overflow of the 64-bit `int` and `cleanup` returns without
error, no file `segment_<q>.log` with `0 ≤ q < S - R + 1` is on disk
afterwards, every segment file with sequence number `≥ S - R + 1` that was on
disk still is, and no file has appeared. -/
theorem cleanup_retention_bound (a : AOF) (fs : FS)
    (hlo : minInt ≤ a.currentSeq - a.totalSegments + 1)
    (hhi : a.currentSeq - a.totalSegments + 1 ≤ maxInt)
    (hok : (cleanup a fs).2 = none) :
    (∀ q : Int, 0 ≤ q → q < a.currentSeq - a.totalSegments + 1 →
      segmentPath a.directory q ∉ (cleanup a fs).1.files) ∧
    (∀ q : Int, a.currentSeq - a.totalSegments + 1 ≤ q →
      segmentPath a.directory q ∈ fs.files →
      segmentPath a.directory q ∈ (cleanup a fs).1.files) ∧
    (∀ p, p ∈ (cleanup a fs).1.files → p ∈ fs.files) := by
  have hm : minSeq a = a.currentSeq - a.totalSegments + 1 := wrapInt_of_range hlo hhi
  rcases cleanup_spec a fs with ⟨_, _, h3, _⟩ | ⟨k, _, _, _, _, h3, _⟩
  · rw [hm] at h3
    refine ⟨?_, ?_, ?_⟩
    · intro q h0 hq hmem
      exact ((h3 _).1 hmem).2 q h0 hq rfl
    · intro q hq hmem
      refine (h3 _).2 ⟨hmem, ?_⟩
      intro q' h0 hq' he
      have := segmentPath_injective a.directory he
      omega
    · intro p hp
      exact ((h3 p).1 hp).1
  · rw [hok] at h3
    cases h3

/-- Scenario B of the specification: with `S = 3`, `R = 2` and `segment_1`,
`segment_2`, `segment_3` on disk, `cleanup` leaves exactly `segment_2` and
`segment_3`. -/
theorem cleanup_retention_bound_witness :
    (cleanup (logAt 2 3)
        (diskWith ["data/segment_1.log", "data/segment_2.log", "data/segment_3.log"])).1.files =
      ["data/segment_2.log", "data/segment_3.log"] ∧
    ((∀ q : Int, 0 ≤ q → q < (logAt 2 3).currentSeq - (logAt 2 3).totalSegments + 1 →
      segmentPath (logAt 2 3).directory q ∉ (cleanup (logAt 2 3)
        (diskWith ["data/segment_1.log", "data/segment_2.log", "data/segment_3.log"])).1.files) ∧
    (∀ q : Int, (logAt 2 3).currentSeq - (logAt 2 3).totalSegments + 1 ≤ q →
      segmentPath (logAt 2 3).directory q ∈
        (diskWith ["data/segment_1.log", "data/segment_2.log", "data/segment_3.log"]).files →
      segmentPath (logAt 2 3).directory q ∈ (cleanup (logAt 2 3)
        (diskWith ["data/segment_1.log", "data/segment_2.log", "data/segment_3.log"])).1.files) ∧
    (∀ p, p ∈ (cleanup (logAt 2 3)
        (diskWith ["data/segment_1.log", "data/segment_2.log", "data/segment_3.log"])).1.files →
      p ∈ (diskWith
        ["data/segment_1.log", "data/segment_2.log", "data/segment_3.log"]).files)) :=
  ⟨by decide,
    cleanup_retention_bound (logAt 2 3)
      (diskWith ["data/segment_1.log", "data/segment_2.log", "data/segment_3.log"])
      (by decide) (by decide) (by decide)⟩

/-- Claim C1 as stated fails when `S - R + 1` overflows: with `S = 0` and
`R = -(2^63 - 1)` the window starts at `2^63`, which wraps to `-2^63`; the loop
of `cleanup` does not run, it returns no error and `segment_0.log`, which lies
below the window, is still on disk. -/
theorem cleanup_retention_overflow :
    (cleanup (logAt (-(2 ^ 63 - 1)) 0) (diskWith ["data/segment_0.log"])).2 = none ∧
    (0 : Int) < (logAt (-(2 ^ 63 - 1)) 0).currentSeq -
      (logAt (-(2 ^ 63 - 1)) 0).totalSegments + 1 ∧
    segmentPath (logAt (-(2 ^ 63 - 1)) 0).directory 0 ∈
      (cleanup (logAt (-(2 ^ 63 - 1)) 0) (diskWith ["data/segment_0.log"])).1.files := by
  decide

/-! ## The active segment -/

/-- Claim C5, amended: for every log state whose `retainedSegmentCount` is at
least 1 (and a 64-bit `int`), a cleanup pass, whatever it returns, leaves the
file `segment_<activeSequence>.log` on disk and does not call `os.Remove` on
it. -/
theorem cleanup_keeps_active (a : AOF) (fs : FS)
    (hR : 1 ≤ a.totalSegments) (hmax : a.totalSegments ≤ maxInt)
    (hmem : segmentPath a.directory a.currentSeq ∈ fs.files) :
    segmentPath a.directory a.currentSeq ∈ (cleanup a fs).1.files ∧
    ∃ calls, (cleanup a fs).1.trace = fs.trace ++ calls ∧
      OsCall.Remove (segmentPath a.directory a.currentSeq) ∉ calls := by
  have hwin : ¬ (0 ≤ a.currentSeq ∧ a.currentSeq < minSeq a) := by
    unfold minSeq wrapInt
    unfold maxInt at hmax
    omega
  rcases cleanup_spec a fs with ⟨_, _, h3, h4⟩ | ⟨k, _, hk, _, _, _, h3, h4⟩
  · refine ⟨(h3 _).2 ⟨hmem, ?_⟩, _, h4, ?_⟩
    · intro q h0 hq he
      have := segmentPath_injective a.directory he
      omega
    · rw [mem_removeCalls]
      omega
  · refine ⟨(h3 _).2 ⟨hmem, ?_⟩, _, h4, ?_⟩
    · intro q h0 hq he
      have := segmentPath_injective a.directory he
      omega
    · rw [mem_removeCalls]
      omega

/-- With `S = 3` and `R = 2` the active `segment_3.log` survives the pass. -/
theorem cleanup_keeps_active_witness :
    segmentPath (logAt 2 3).directory (logAt 2 3).currentSeq ∈
      (cleanup (logAt 2 3) (diskWith ["data/segment_1.log", "data/segment_3.log"])).1.files ∧
    ∃ calls,
      (cleanup (logAt 2 3) (diskWith ["data/segment_1.log", "data/segment_3.log"])).1.trace =
        (diskWith ["data/segment_1.log", "data/segment_3.log"]).trace ++ calls ∧
      OsCall.Remove (segmentPath (logAt 2 3).directory (logAt 2 3).currentSeq) ∉ calls :=
  cleanup_keeps_active (logAt 2 3) (diskWith ["data/segment_1.log", "data/segment_3.log"])
    (by decide) (by decide) (by decide)

/-- Claim C5 as stated fails: with `retainedSegmentCount = 0` and
`activeSequence = 1` the loop runs for `seq = 0, 1` and removes the active
`segment_1.log`. -/
theorem cleanup_removes_active_when_zero :
    segmentPath (logAt 0 1).directory (logAt 0 1).currentSeq ∈
      (diskWith ["data/segment_1.log"]).files ∧
    segmentPath (logAt 0 1).directory (logAt 0 1).currentSeq ∉
      (cleanup (logAt 0 1) (diskWith ["data/segment_1.log"])).1.files ∧
    (cleanup (logAt 0 1) (diskWith ["data/segment_1.log"])).2 = none := by
  decide

/-! ## Failing removals -/

/-- Claim C6, amended: when the removal of a candidate below the window fails
for a reason other than the file being absent, `cleanup` stops at the first
such candidate `k` and returns the error of that removal: every candidate
below `k` is gone, every other file is left as it was, and `os.Remove` was
called on the candidates `0 .. k` and on none above `k`. -/
theorem cleanup_stops_at_first_failure (a : AOF) (fs : FS)
    (h : ∃ q : Int, 0 ≤ q ∧ q < minSeq a ∧ blocked fs (segmentPath a.directory q)) :
    ∃ k : Int, 0 ≤ k ∧ k < minSeq a ∧ blocked fs (segmentPath a.directory k) ∧
      (∀ q : Int, 0 ≤ q → q < k → ¬ blocked fs (segmentPath a.directory q)) ∧
      (cleanup a fs).2 =
        some (Err.Errorf ("failed to remove file " ++ segmentPath a.directory k) Err.ErrIO) ∧
      (∀ q : Int, 0 ≤ q → q < k → segmentPath a.directory q ∉ (cleanup a fs).1.files) ∧
      (∀ p, p ∈ fs.files → (∀ q : Int, 0 ≤ q → q < k → p ≠ segmentPath a.directory q) →
        p ∈ (cleanup a fs).1.files) ∧
      (∃ calls, (cleanup a fs).1.trace = fs.trace ++ calls ∧
        ∀ q : Int, OsCall.Remove (segmentPath a.directory q) ∈ calls ↔ 0 ≤ q ∧ q ≤ k) := by
  rcases cleanup_spec a fs with ⟨_, h2, _, _⟩ | ⟨k, h0, hk, hb, hfirst, herr, h3, h4⟩
  · obtain ⟨q, h0, hq, hb⟩ := h
    exact absurd hb (h2 q h0 hq)
  · refine ⟨k, h0, hk, hb, hfirst, herr, ?_, ?_, _, h4, ?_⟩
    · intro q hq0 hq hmem
      exact ((h3 _).1 hmem).2 q hq0 hq rfl
    · intro p hp hq
      exact (h3 p).2 ⟨hp, hq⟩
    · intro q
      rw [mem_removeCalls]
      omega

/-- With `S = 3`, `R = 1` and a disk that refuses to remove `segment_1.log`. -/
theorem cleanup_stops_at_first_failure_witness :
    ∃ k : Int, 0 ≤ k ∧ k < minSeq (logAt 1 3) ∧
      blocked (diskRefusing ["data/segment_0.log", "data/segment_1.log", "data/segment_2.log"])
        (segmentPath (logAt 1 3).directory k) ∧
      (∀ q : Int, 0 ≤ q → q < k →
        ¬ blocked
          (diskRefusing ["data/segment_0.log", "data/segment_1.log", "data/segment_2.log"])
          (segmentPath (logAt 1 3).directory q)) ∧
      (cleanup (logAt 1 3)
        (diskRefusing ["data/segment_0.log", "data/segment_1.log", "data/segment_2.log"])).2 =
        some (Err.Errorf ("failed to remove file " ++ segmentPath (logAt 1 3).directory k)
          Err.ErrIO) ∧
      (∀ q : Int, 0 ≤ q → q < k → segmentPath (logAt 1 3).directory q ∉ (cleanup (logAt 1 3)
        (diskRefusing
          ["data/segment_0.log", "data/segment_1.log", "data/segment_2.log"])).1.files) ∧
      (∀ p, p ∈ (diskRefusing
          ["data/segment_0.log", "data/segment_1.log", "data/segment_2.log"]).files →
        (∀ q : Int, 0 ≤ q → q < k → p ≠ segmentPath (logAt 1 3).directory q) →
        p ∈ (cleanup (logAt 1 3) (diskRefusing
          ["data/segment_0.log", "data/segment_1.log", "data/segment_2.log"])).1.files) ∧
      (∃ calls, (cleanup (logAt 1 3) (diskRefusing
          ["data/segment_0.log", "data/segment_1.log", "data/segment_2.log"])).1.trace =
          (diskRefusing
            ["data/segment_0.log", "data/segment_1.log", "data/segment_2.log"]).trace ++ calls ∧
        ∀ q : Int, OsCall.Remove (segmentPath (logAt 1 3).directory q) ∈ calls ↔
          0 ≤ q ∧ q ≤ k) :=
  cleanup_stops_at_first_failure (logAt 1 3)
    (diskRefusing ["data/segment_0.log", "data/segment_1.log", "data/segment_2.log"])
    ⟨1, by decide, by decide, by decide⟩

/-- Claim C6 as stated fails: with `S = 3`, `R = 1` and a disk that refuses to
remove `segment_1.log`, `cleanup` removes `segment_0.log`, returns the error
of `segment_1.log` and never tries `segment_2.log`, which is a candidate below
the window whose removal would succeed and which is still on disk. -/
theorem cleanup_aborts_on_failure :
    (cleanup (logAt 1 3)
      (diskRefusing ["data/segment_0.log", "data/segment_1.log", "data/segment_2.log"])).2 =
      some (Err.Errorf "failed to remove file data/segment_1.log" Err.ErrIO) ∧
    (2 : Int) < minSeq (logAt 1 3) ∧
    ¬ blocked (diskRefusing ["data/segment_0.log", "data/segment_1.log", "data/segment_2.log"])
      (segmentPath "data" 2) ∧
    (cleanup (logAt 1 3)
      (diskRefusing ["data/segment_0.log", "data/segment_1.log", "data/segment_2.log"])).1.files =
      ["data/segment_1.log", "data/segment_2.log"] ∧
    (cleanup (logAt 1 3)
      (diskRefusing ["data/segment_0.log", "data/segment_1.log", "data/segment_2.log"])).1.trace =
      [OsCall.Remove "data/segment_0.log", OsCall.Remove "data/segment_1.log"] := by
  decide

/-! ## Idempotence -/

/-- Claim C10, amended: when a cleanup pass returns without error, a second
pass with the same `activeSequence` and `retainedSegmentCount` returns without
error as well and leaves files and directories exactly as the first pass left
them; a candidate for which `os.Remove` answers `ErrNotExist` is never
reported: every error a pass returns is the failure, of another kind, of the
removal of a candidate, and a pass in which no removal fails in such a way
returns no error. -/
theorem cleanup_idempotent (a : AOF) (fs : FS) :
    ((cleanup a fs).2 = none →
      (cleanup a (cleanup a fs).1).2 = none ∧
      (cleanup a (cleanup a fs).1).1.files = (cleanup a fs).1.files ∧
      (cleanup a (cleanup a fs).1).1.dirs = (cleanup a fs).1.dirs) ∧
    (∀ e, (cleanup a fs).2 = some e →
      ∃ k : Int, 0 ≤ k ∧ k < minSeq a ∧ blocked fs (segmentPath a.directory k) ∧
        e = Err.Errorf ("failed to remove file " ++ segmentPath a.directory k) Err.ErrIO) ∧
    ((∀ q : Int, 0 ≤ q → q < minSeq a → ¬ blocked fs (segmentPath a.directory q)) →
      (cleanup a fs).2 = none) := by
  refine ⟨?_, ?_, ?_⟩
  · intro hok
    rcases cleanup_spec a fs with ⟨_, h2, h3, _⟩ | ⟨k, _, _, _, _, h3, _⟩
    · have henv := (cleanupLoop_env a.directory (minSeq a).toNat 0 fs).2.2.1
      have hdirs := cleanupLoop_dirs a.directory (minSeq a).toNat 0 fs hok
      have habs : ∀ i : Nat, i < (minSeq a).toNat →
          segmentPath a.directory (0 + (i : Int)) ∉ (cleanup a fs).1.files ∧
          segmentPath a.directory (0 + (i : Int)) ∉ (cleanup a fs).1.dirs ∧
          ¬ blocked (cleanup a fs).1 (segmentPath a.directory (0 + (i : Int))) := by
        intro i hi
        refine ⟨?_, hdirs i hi, ?_⟩
        · intro hmem
          exact ((h3 _).1 hmem).2 (0 + (i : Int)) (by omega) (by omega) rfl
        · have := h2 (0 + (i : Int)) (by omega) (by omega)
          unfold blocked at this ⊢
          unfold cleanup
          rw [henv]
          exact this
      have := cleanupLoop_absent a.directory (minSeq a).toNat 0 (cleanup a fs).1 habs
      unfold cleanup at this ⊢
      rw [this]
      exact ⟨rfl, rfl, rfl⟩
    · rw [hok] at h3
      cases h3
  · intro e he
    rcases cleanup_spec a fs with ⟨h1, _, _, _⟩ | ⟨k, h0, hk, hb, _, h3, _, _⟩
    · rw [h1] at he
      cases he
    · rw [h3] at he
      exact ⟨k, h0, hk, hb, (Option.some.inj he).symm⟩
  · intro hnone
    rcases cleanup_spec a fs with ⟨h1, _, _, _⟩ | ⟨k, h0, hk, hb, _, _, _, _⟩
    · exact h1
    · exact absurd hb (hnone k h0 hk)

/-- Scenario B run twice: the second pass finds `segment_0.log` and
`segment_1.log` missing and changes nothing. On a disk that refuses to remove
`segment_1.log` the error is about that file, not about the missing
`segment_0.log`; on a disk that refuses nothing there is no error. -/
theorem cleanup_idempotent_witness :
    ((cleanup (logAt 2 3)
      (diskWith ["data/segment_1.log", "data/segment_2.log", "data/segment_3.log"])).2 = none ∧
    (cleanup (logAt 2 3) (cleanup (logAt 2 3)
      (diskWith ["data/segment_1.log", "data/segment_2.log", "data/segment_3.log"])).1).2 =
      none ∧
    (cleanup (logAt 2 3) (cleanup (logAt 2 3)
      (diskWith ["data/segment_1.log", "data/segment_2.log", "data/segment_3.log"])).1).1.files =
      (cleanup (logAt 2 3)
        (diskWith ["data/segment_1.log", "data/segment_2.log", "data/segment_3.log"])).1.files ∧
    (cleanup (logAt 2 3) (cleanup (logAt 2 3)
      (diskWith ["data/segment_1.log", "data/segment_2.log", "data/segment_3.log"])).1).1.dirs =
      (cleanup (logAt 2 3)
        (diskWith ["data/segment_1.log", "data/segment_2.log", "data/segment_3.log"])).1.dirs) ∧
    (∃ k : Int, 0 ≤ k ∧ k < minSeq (logAt 1 3) ∧
      blocked (diskRefusing ["data/segment_1.log", "data/segment_3.log"])
        (segmentPath (logAt 1 3).directory k) ∧
      Err.Errorf "failed to remove file data/segment_1.log" Err.ErrIO =
        Err.Errorf ("failed to remove file " ++ segmentPath (logAt 1 3).directory k)
          Err.ErrIO) ∧
    (cleanup (logAt 2 3) (diskWith ["data/segment_3.log"])).2 = none :=
  ⟨⟨by decide,
      (cleanup_idempotent (logAt 2 3)
        (diskWith ["data/segment_1.log", "data/segment_2.log", "data/segment_3.log"])).1
        (by decide)⟩,
    (cleanup_idempotent (logAt 1 3)
      (diskRefusing ["data/segment_1.log", "data/segment_3.log"])).2.1
      (Err.Errorf "failed to remove file data/segment_1.log" Err.ErrIO) (by decide),
    (cleanup_idempotent (logAt 2 3) (diskWith ["data/segment_3.log"])).2.2
      (by intro q _ _ h; cases h)⟩

/-- Claim C10 as stated fails in its last clause: with `S = 3`, `R = 2` and a
disk on which `data/segment_1.log` does not exist and `os.Remove` of it fails
with an error other than `ErrNotExist` (a path component that is not a
directory or cannot be searched), `cleanup` reports that missing candidate as
an error. -/
theorem cleanup_reports_missing_candidate :
    (1 : Int) < minSeq (logAt 2 3) ∧
    segmentPath (logAt 2 3).directory 1 ∉ (diskRefusing ["data/segment_3.log"]).files ∧
    segmentPath (logAt 2 3).directory 1 ∉ (diskRefusing ["data/segment_3.log"]).dirs ∧
    (cleanup (logAt 2 3) (diskRefusing ["data/segment_3.log"])).2 =
      some (Err.Errorf "failed to remove file data/segment_1.log" Err.ErrIO) := by
  decide

/-! ## `AOF.rotate` -/

/-- The receiver after the first two assignments of a `rotate` that got as
far as opening the new segment. -/
theorem rotate_ok (a : AOF) (fs : FS) (h : (rotate a fs).2.2 = none) :
    ∃ (f : File) (fs2 : FS),
      a.currentFile = some f ∧ f.fd ∈ fs.openFds ∧
      fs2.files = (if segmentPath a.directory (wrapInt (a.currentSeq + 1)) ∈ fs.files
        then fs.files else segmentPath a.directory (wrapInt (a.currentSeq + 1)) :: fs.files) ∧
      fs2.dirs = fs.dirs ∧
      fs2.openFds = fs.nextFd :: fs.openFds.filter (fun d => d ≠ f.fd) ∧
      fs2.trace = fs.trace ++ [OsCall.Close (some f),
        OsCall.OpenFile (segmentPath a.directory (wrapInt (a.currentSeq + 1)))] ∧
      (cleanup { a with
          currentSeq := wrapInt (a.currentSeq + 1)
          currentFile := some
            { fd := fs.nextFd, name := segmentPath a.directory (wrapInt (a.currentSeq + 1)) } }
        fs2).2 = none ∧
      rotate a fs =
        ({ a with
            currentSeq := wrapInt (a.currentSeq + 1)
            currentFile := some
              { fd := fs.nextFd
                name := segmentPath a.directory (wrapInt (a.currentSeq + 1)) } },
          (cleanup { a with
              currentSeq := wrapInt (a.currentSeq + 1)
              currentFile := some
                { fd := fs.nextFd
                  name := segmentPath a.directory (wrapInt (a.currentSeq + 1)) } }
            fs2).1, none) := by
  cases hcf : a.currentFile with
  | none => simp [rotate, Close, hcf] at h
  | some f =>
    by_cases hfd : f.fd ∈ fs.openFds
    · cases hclose : fs.closeFault f.fd
      · cases hopen : fs.openFault (segmentPath a.directory (wrapInt (a.currentSeq + 1)))
        · have hrot : rotate a fs =
              (match cleanup { a with
                    currentSeq := wrapInt (a.currentSeq + 1)
                    currentFile := some
                      { fd := fs.nextFd
                        name := segmentPath a.directory (wrapInt (a.currentSeq + 1)) } }
                  { fs with
                    files :=
                      if segmentPath a.directory (wrapInt (a.currentSeq + 1)) ∈ fs.files
                      then fs.files
                      else segmentPath a.directory (wrapInt (a.currentSeq + 1)) :: fs.files
                    openFds := fs.nextFd :: fs.openFds.filter (fun d => d ≠ f.fd)
                    nextFd := fs.nextFd + 1
                    trace := fs.trace ++ [OsCall.Close (some f),
                      OsCall.OpenFile
                        (segmentPath a.directory (wrapInt (a.currentSeq + 1)))] } with
                | (fs3, some err) =>
                  ({ a with
                      currentSeq := wrapInt (a.currentSeq + 1)
                      currentFile := some
                        { fd := fs.nextFd
                          name := segmentPath a.directory (wrapInt (a.currentSeq + 1)) } },
                    fs3, some (Err.Errorf "cleanup failed" err))
                | (fs3, none) =>
                  ({ a with
                      currentSeq := wrapInt (a.currentSeq + 1)
                      currentFile := some
                        { fd := fs.nextFd
                          name := segmentPath a.directory (wrapInt (a.currentSeq + 1)) } },
                    fs3, none)) := by
            simp [rotate, Close, createSegmentFile, OpenFile, hcf, hfd, hclose, hopen]
          rw [hrot] at h ⊢
          refine ⟨f, { fs with
              files :=
                if segmentPath a.directory (wrapInt (a.currentSeq + 1)) ∈ fs.files
                then fs.files
                else segmentPath a.directory (wrapInt (a.currentSeq + 1)) :: fs.files
              openFds := fs.nextFd :: fs.openFds.filter (fun d => d ≠ f.fd)
              nextFd := fs.nextFd + 1
              trace := fs.trace ++ [OsCall.Close (some f),
                OsCall.OpenFile (segmentPath a.directory (wrapInt (a.currentSeq + 1)))] },
            rfl, hfd, rfl, rfl, rfl, rfl, ?_⟩
          generalize cleanup _ _ = r at h ⊢
          rcases r with ⟨fs3, _ | e⟩
          · exact ⟨rfl, rfl⟩
          · simp at h
        · simp [rotate, Close, createSegmentFile, OpenFile, hcf, hfd, hclose, hopen] at h
      · simp [rotate, Close, hcf, hfd, hclose] at h
    · simp [rotate, Close, hcf, hfd] at h

/-- What a successful `rotate` leaves behind. -/
theorem rotate_step (a : AOF) (fs : FS) (h : (rotate a fs).2.2 = none) :
    (rotate a fs).1.directory = a.directory ∧
    (rotate a fs).1.totalSegments = a.totalSegments ∧
    (rotate a fs).1.currentSeq = wrapInt (a.currentSeq + 1) ∧
    openOn (rotate a fs).1 (rotate a fs).2.1 (wrapInt (a.currentSeq + 1)) ∧
    (∀ p, p ∈ (rotate a fs).2.1.files ↔
      (p ∈ fs.files ∨ p = segmentPath a.directory (wrapInt (a.currentSeq + 1))) ∧
      ∀ q : Int, 0 ≤ q → q < wrapInt (wrapInt (a.currentSeq + 1) - a.totalSegments + 1) →
        p ≠ segmentPath a.directory q) ∧
    OsCall.OpenFile (segmentPath a.directory (wrapInt (a.currentSeq + 1))) ∈
      (rotate a fs).2.1.trace := by
  obtain ⟨f, fs2, hcf, hfd, hfiles, hdirs, hfds, htrace, hc, hrot⟩ := rotate_ok a fs h
  rw [hrot]
  refine ⟨rfl, rfl, rfl, ?_, ?_, ?_⟩
  · unfold openOn
    refine ⟨rfl, ?_⟩
    have := (cleanupLoop_env a.directory
      (minSeq { a with
        currentSeq := wrapInt (a.currentSeq + 1)
        currentFile := some
          { fd := fs.nextFd, name := segmentPath a.directory (wrapInt (a.currentSeq + 1)) } }).toNat
      0 fs2).1
    unfold cleanup
    simp only []
    rw [this, hfds]
    exact List.mem_cons_self _ _
  · intro p
    rcases cleanup_spec { a with
        currentSeq := wrapInt (a.currentSeq + 1)
        currentFile := some
          { fd := fs.nextFd, name := segmentPath a.directory (wrapInt (a.currentSeq + 1)) } }
      fs2 with ⟨_, _, h3, _⟩ | ⟨k, _, _, _, _, h3, _⟩
    · simp only []
      rw [h3, hfiles]
      unfold minSeq
      simp only []
      by_cases hex : segmentPath a.directory (wrapInt (a.currentSeq + 1)) ∈ fs.files
      · simp only [hex, if_true]
        constructor
        · rintro ⟨hp, hq⟩; exact ⟨Or.inl hp, hq⟩
        · rintro ⟨hp | hp, hq⟩
          · exact ⟨hp, hq⟩
          · exact ⟨hp ▸ hex, hq⟩
      · simp only [hex, if_false, List.mem_cons]
        constructor
        · rintro ⟨hp | hp, hq⟩
          · exact ⟨Or.inr hp, hq⟩
          · exact ⟨Or.inl hp, hq⟩
        · rintro ⟨hp | hp, hq⟩
          · exact ⟨Or.inr hp, hq⟩
          · exact ⟨Or.inl hp, hq⟩
    · rw [hc] at h3
      cases h3
  · rcases cleanup_spec { a with
        currentSeq := wrapInt (a.currentSeq + 1)
        currentFile := some
          { fd := fs.nextFd, name := segmentPath a.directory (wrapInt (a.currentSeq + 1)) } }
      fs2 with ⟨_, _, _, h4⟩ | ⟨k, _, _, _, _, h3, _⟩
    · simp only []
      rw [h4, htrace]
      simp
    · rw [hc] at h3
      cases h3

/-! ## Failures of `rotate` -/

/-- Claim C7: when closing the current handle fails, `rotate` returns that
error wrapped as "failed to close current file" and leaves the receiver
(`activeSequence` and the handle included), the files and the directories as
they were; its only call is the `Close`. -/
theorem rotate_close_failure (a : AOF) (fs : FS) (e : Err)
    (h : (Close a.currentFile fs).2 = some e) :
    (rotate a fs).2.2 = some (Err.Errorf "failed to close current file" e) ∧
    (rotate a fs).1 = a ∧
    (rotate a fs).1.currentSeq = a.currentSeq ∧
    (rotate a fs).1.currentFile = a.currentFile ∧
    (rotate a fs).2.1.files = fs.files ∧
    (rotate a fs).2.1.dirs = fs.dirs ∧
    (rotate a fs).2.1.trace = fs.trace ++ [OsCall.Close a.currentFile] := by
  have hfs : (Close a.currentFile fs).1.files = fs.files ∧
      (Close a.currentFile fs).1.dirs = fs.dirs ∧
      (Close a.currentFile fs).1.trace = fs.trace ++ [OsCall.Close a.currentFile] := by
    unfold Close
    cases a.currentFile with
    | none => exact ⟨rfl, rfl, rfl⟩
    | some f =>
      by_cases hfd : f.fd ∈ fs.openFds
      · simp [hfd]
      · simp [hfd]
  have hrot : rotate a fs =
      (a, (Close a.currentFile fs).1, some (Err.Errorf "failed to close current file" e)) := by
    unfold rotate
    rcases hC : Close a.currentFile fs with ⟨fs1, r⟩
    rw [hC] at h
    simp only at h
    subst h
    rfl
  rw [hrot]
  exact ⟨rfl, rfl, rfl, rfl, hfs.1, hfs.2.1, hfs.2.2⟩

/-- A flush error on closing `segment_1.log`: nothing is rotated. -/
theorem rotate_close_failure_witness :
    (rotate (openLogAt 2 1) (diskFailingClose ["data/segment_1.log"])).2.2 =
      some (Err.Errorf "failed to close current file" Err.ErrIO) ∧
    (rotate (openLogAt 2 1) (diskFailingClose ["data/segment_1.log"])).1 = openLogAt 2 1 ∧
    (rotate (openLogAt 2 1) (diskFailingClose ["data/segment_1.log"])).1.currentSeq =
      (openLogAt 2 1).currentSeq ∧
    (rotate (openLogAt 2 1) (diskFailingClose ["data/segment_1.log"])).1.currentFile =
      (openLogAt 2 1).currentFile ∧
    (rotate (openLogAt 2 1) (diskFailingClose ["data/segment_1.log"])).2.1.files =
      (diskFailingClose ["data/segment_1.log"]).files ∧
    (rotate (openLogAt 2 1) (diskFailingClose ["data/segment_1.log"])).2.1.dirs =
      (diskFailingClose ["data/segment_1.log"]).dirs ∧
    (rotate (openLogAt 2 1) (diskFailingClose ["data/segment_1.log"])).2.1.trace =
      (diskFailingClose ["data/segment_1.log"]).trace ++
        [OsCall.Close (openLogAt 2 1).currentFile] :=
  rotate_close_failure (openLogAt 2 1) (diskFailingClose ["data/segment_1.log"]) Err.ErrIO
    (by decide)

/-- Claim C8 fails on the code: with `segment_1.log` open and active and a
disk on which `segment_2.log` cannot be created, `rotate` returns an error
with `activeSequence` already bumped from 1 to 2 while the handle is still
the one of `segment_1.log`, which has been closed; `segment_2.log` does not
exist. -/
theorem rotate_create_failure_bumps_sequence :
    openOn (openLogAt 2 1) (diskFailingOpen ["data/segment_1.log"]) 1 ∧
    (rotate (openLogAt 2 1) (diskFailingOpen ["data/segment_1.log"])).2.2 =
      some (Err.Errorf "failed to create new segment file"
        (Err.Errorf "failed to open or create file data/segment_2.log" Err.ErrIO)) ∧
    (openLogAt 2 1).currentSeq = 1 ∧
    (rotate (openLogAt 2 1) (diskFailingOpen ["data/segment_1.log"])).1.currentSeq = 2 ∧
    (rotate (openLogAt 2 1) (diskFailingOpen ["data/segment_1.log"])).1.currentFile =
      some { fd := 3, name := "data/segment_1.log" } ∧
    (rotate (openLogAt 2 1) (diskFailingOpen ["data/segment_1.log"])).2.1.openFds = [] ∧
    (rotate (openLogAt 2 1) (diskFailingOpen ["data/segment_1.log"])).2.1.files =
      ["data/segment_1.log"] ∧
    ¬ openOn (rotate (openLogAt 2 1) (diskFailingOpen ["data/segment_1.log"])).1
      (rotate (openLogAt 2 1) (diskFailingOpen ["data/segment_1.log"])).2.1 2 := by
  decide

/-! ## `NewAOF` -/

/-- Claim C2 fails on the code: `NewAOF` never returns a log. When the
directory cannot be made it returns that error; otherwise `rotate` calls
`Close` on the nil `currentFile`, which answers `ErrInvalid`, and `NewAOF`
returns "failed to rotate to initial segment" without having opened
`segment_1.log`: its calls are `MkdirAll` and `Close` on nil. -/
theorem NewAOF_never_succeeds (directory : String) (segmentSize totalSegments : Int)
    (fs : FS) :
    (∃ e, (MkdirAll directory fs).2 = some e ∧
      (NewAOF directory segmentSize totalSegments fs).2 =
        .error (Err.Errorf "failed to create directory" e)) ∨
    ((MkdirAll directory fs).2 = none ∧
      (NewAOF directory segmentSize totalSegments fs).2 =
        .error (Err.Errorf "failed to rotate to initial segment"
          (Err.Errorf "failed to close current file" Err.ErrInvalid)) ∧
      (NewAOF directory segmentSize totalSegments fs).1.trace =
        fs.trace ++ [OsCall.MkdirAll directory, OsCall.Close none] ∧
      (NewAOF directory segmentSize totalSegments fs).1.files = fs.files) := by
  unfold NewAOF
  rcases hM : MkdirAll directory fs with ⟨fs1, _ | e⟩
  · right
    have h1 : fs1.trace = fs.trace ++ [OsCall.MkdirAll directory] ∧ fs1.files = fs.files := by
      unfold MkdirAll at hM
      simp only at hM
      split at hM
      · cases hM; exact ⟨rfl, rfl⟩
      · split at hM
        · cases hM
        · split at hM
          · cases hM
          · cases hM; exact ⟨rfl, rfl⟩
    simp [rotate, Close, h1.1, h1.2]
  · left
    exact ⟨e, rfl, rfl⟩

/-- Claim C9, amended: `NewAOF` does not look at `segmentSize` or
`totalSegments`; whatever their values, its first call is `os.MkdirAll` on the
directory. When that call succeeds the directory exists afterwards; when it
fails `NewAOF` returns that error and no log, makes no other call, and leaves
files and directories as they were. -/
theorem NewAOF_makes_directory_first (directory : String) (segmentSize totalSegments : Int)
    (fs : FS) :
    (∃ calls, (NewAOF directory segmentSize totalSegments fs).1.trace =
      fs.trace ++ OsCall.MkdirAll directory :: calls) ∧
    ((MkdirAll directory fs).2 = none →
      directory ∈ (NewAOF directory segmentSize totalSegments fs).1.dirs) ∧
    (∀ e, (MkdirAll directory fs).2 = some e →
      (NewAOF directory segmentSize totalSegments fs).2 =
        .error (Err.Errorf "failed to create directory" e) ∧
      (NewAOF directory segmentSize totalSegments fs).1.trace =
        fs.trace ++ [OsCall.MkdirAll directory] ∧
      (NewAOF directory segmentSize totalSegments fs).1.files = fs.files ∧
      (NewAOF directory segmentSize totalSegments fs).1.dirs = fs.dirs) := by
  obtain ⟨htrace, hfiles, hok, herr⟩ := MkdirAll_spec directory fs
  unfold NewAOF
  rcases hM : MkdirAll directory fs with ⟨fs1, _ | e⟩
  · rw [hM] at htrace hfiles hok herr
    simp only at htrace hfiles hok herr
    refine ⟨⟨[OsCall.Close none], ?_⟩, ?_, ?_⟩
    · simp [rotate, Close, htrace]
    · intro _
      simpa [rotate, Close] using hok trivial
    · intro e he
      cases he
  · rw [hM] at htrace hfiles hok herr
    simp only at htrace hfiles hok herr
    refine ⟨⟨[], htrace⟩, ?_, ?_⟩
    · intro he
      cases he
    · intro e' he
      cases he
      exact ⟨rfl, htrace, hfiles, herr e rfl⟩

/-- On an empty disk `NewAOF "data" 0 2` makes the directory `data`; on a disk
where `data` is a regular file it returns the error of `MkdirAll` and does
nothing else. -/
theorem NewAOF_makes_directory_first_witness :
    "data" ∈ (NewAOF "data" 0 2 emptyFS).1.dirs ∧
    ((NewAOF "data" 0 2 (diskWith ["data"])).2 =
        .error (Err.Errorf "failed to create directory" Err.ErrNotDir) ∧
      (NewAOF "data" 0 2 (diskWith ["data"])).1.trace =
        (diskWith ["data"]).trace ++ [OsCall.MkdirAll "data"] ∧
      (NewAOF "data" 0 2 (diskWith ["data"])).1.files = (diskWith ["data"]).files ∧
      (NewAOF "data" 0 2 (diskWith ["data"])).1.dirs = (diskWith ["data"]).dirs) :=
  ⟨(NewAOF_makes_directory_first "data" 0 2 emptyFS).2.1 (by decide),
    (NewAOF_makes_directory_first "data" 0 2 (diskWith ["data"])).2.2 Err.ErrNotDir
      (by decide)⟩

/-- Claim C9 as stated fails: `NewAOF` with `segmentSize = 0` on an empty
disk does return an error and no log, but only after it has called
`os.MkdirAll` and made the directory `data`. -/
theorem NewAOF_invalid_config_touches_disk :
    emptyFS.dirs = [] ∧
    (NewAOF "data" 0 2 emptyFS).1.dirs = ["data"] ∧
    (NewAOF "data" 0 2 emptyFS).1.trace = [OsCall.MkdirAll "data", OsCall.Close none] ∧
    (NewAOF "data" 0 2 emptyFS).2 =
      .error (Err.Errorf "failed to rotate to initial segment"
        (Err.Errorf "failed to close current file" Err.ErrInvalid)) :=
  ⟨by decide, by decide, by decide, rfl⟩

/-! ## Sequence numbers -/

/-- The window of a log with at least one retained segment never starts
above its own sequence number. -/
theorem active_not_candidate (seq total : Int) (h1 : 1 ≤ total) (h2 : total ≤ maxInt) :
    ¬ (0 ≤ seq ∧ seq < wrapInt (seq - total + 1)) := by
  unfold wrapInt
  unfold maxInt at h2
  omega

/-- The sequence numbers of `n` successful rotations count up from the one
the log starts with, as long as the 64-bit `int` does not overflow. -/
theorem rotateN_seqs : ∀ (n : Nat) (a : AOF) (fs : FS) (r : List Int × AOF × FS),
    rotateN n a fs = some r → minInt ≤ a.currentSeq → a.currentSeq + n ≤ maxInt →
    r.1 = (List.range n).map (fun (i : Nat) => a.currentSeq + 1 + (i : Int)) ∧
    r.2.1.currentSeq = a.currentSeq + n := by
  intro n
  induction n with
  | zero =>
    intro a fs r h _ _
    simp only [rotateN, Option.some.injEq] at h
    subst h
    simp
  | succ n ih =>
    intro a fs r h hlo hhi
    have hstep := rotate_step a fs
    rcases hr : rotate a fs with ⟨a1, fs1, e⟩
    rw [hr] at hstep
    cases e with
    | some e => simp [rotateN, hr] at h
    | none =>
      have hseq : a1.currentSeq = a.currentSeq + 1 := by
        rw [(hstep rfl).2.2.1]
        apply wrapInt_of_range
        · unfold minInt at *; omega
        · push_cast at hhi; omega
      rcases hn : rotateN n a1 fs1 with _ | ⟨seqs, a', fs'⟩
      · simp [rotateN, hr, hn] at h
      · simp only [rotateN, hr, hn, Option.some.injEq] at h
        subst h
        obtain ⟨h1, h2⟩ := ih a1 fs1 _ hn (by rw [hseq]; unfold minInt at *; omega)
          (by rw [hseq]; push_cast at hhi; omega)
        simp only at h1 h2 ⊢
        refine ⟨?_, ?_⟩
        · rw [List.range_succ_eq_map, h1, hseq]
          simp only [List.map_cons, List.map_map, Nat.cast_zero, add_zero, List.cons.injEq,
            true_and]
          apply List.map_congr_left
          intro i _
          simp only [Function.comp_apply, Nat.succ_eq_add_one, Nat.cast_add, Nat.cast_one]
          ring
        · rw [h2, hseq]
          push_cast
          ring

/-- Claim C3, amended: a successful `rotate` from sequence number `s` with
`s < 2^63 - 1` leaves `activeSequence = s + 1`, has opened (with `O_CREATE`)
the file `segment_<s+1>.log`, which the handle now refers to and which is on
disk when `retainedSegmentCount ≥ 1`; and `N` successful rotations in a row
from sequence number 1, with `N + 1 ≤ 2^63 - 1`, carry exactly the sequence
numbers `1, 2, ..., N + 1` in this order. -/
theorem rotate_monotonic_sequencing :
    (∀ (a : AOF) (fs : FS), minInt ≤ a.currentSeq → a.currentSeq < maxInt →
      (rotate a fs).2.2 = none →
      (rotate a fs).1.currentSeq = a.currentSeq + 1 ∧
      OsCall.OpenFile (segmentPath a.directory (a.currentSeq + 1)) ∈
        (rotate a fs).2.1.trace ∧
      openOn (rotate a fs).1 (rotate a fs).2.1 (a.currentSeq + 1) ∧
      (1 ≤ a.totalSegments → a.totalSegments ≤ maxInt →
        segmentPath a.directory (a.currentSeq + 1) ∈ (rotate a fs).2.1.files)) ∧
    (∀ (N : Nat) (a : AOF) (fs : FS) (l : List Int), a.currentSeq = 1 →
      (N : Int) + 1 ≤ maxInt → assignedSeqs N a fs = some l →
      l = (List.range (N + 1)).map (fun (i : Nat) => (i : Int) + 1)) := by
  constructor
  · intro a fs hlo hhi hok
    obtain ⟨_, _, hseq, hopen, hfiles, htrace⟩ := rotate_step a fs hok
    have hw : wrapInt (a.currentSeq + 1) = a.currentSeq + 1 :=
      wrapInt_of_range (by unfold minInt at *; omega) (by omega)
    rw [hw] at hseq hopen hfiles htrace
    refine ⟨hseq, htrace, hopen, ?_⟩
    intro h1 h2
    refine (hfiles _).2 ⟨Or.inr rfl, ?_⟩
    intro q h0 hq he
    have := segmentPath_injective a.directory he
    have := active_not_candidate (a.currentSeq + 1) a.totalSegments h1 h2
    omega
  · intro N a fs l hs hN h
    unfold assignedSeqs at h
    rcases hr : rotateN N a fs with _ | r
    · simp [hr] at h
    · simp only [hr, Option.map_some', Option.some.injEq] at h
      obtain ⟨h1, _⟩ := rotateN_seqs N a fs r hr (by rw [hs]; decide) (by rw [hs]; omega)
      rw [← h, h1, hs, List.range_succ_eq_map]
      simp only [List.map_cons, List.map_map, Nat.cast_zero, zero_add, List.cons.injEq,
        true_and]
      apply List.map_congr_left
      intro i _
      simp only [Function.comp_apply, Nat.succ_eq_add_one, Nat.cast_add, Nat.cast_one]
      ring

/-- Scenarios A and B of the specification: from `segment_1.log` with
`R = 2`, one rotation gives sequence number 2 and two rotations carry
`1, 2, 3`. -/
theorem rotate_monotonic_sequencing_witness :
    ((rotate (openLogAt 2 1) (openDiskWith ["data/segment_1.log"])).1.currentSeq =
        (openLogAt 2 1).currentSeq + 1 ∧
      OsCall.OpenFile (segmentPath (openLogAt 2 1).directory ((openLogAt 2 1).currentSeq + 1)) ∈
        (rotate (openLogAt 2 1) (openDiskWith ["data/segment_1.log"])).2.1.trace ∧
      openOn (rotate (openLogAt 2 1) (openDiskWith ["data/segment_1.log"])).1
        (rotate (openLogAt 2 1) (openDiskWith ["data/segment_1.log"])).2.1
        ((openLogAt 2 1).currentSeq + 1) ∧
      segmentPath (openLogAt 2 1).directory ((openLogAt 2 1).currentSeq + 1) ∈
        (rotate (openLogAt 2 1) (openDiskWith ["data/segment_1.log"])).2.1.files) ∧
    [1, 2, 3] = (List.range (2 + 1)).map (fun (i : Nat) => (i : Int) + 1) :=
  ⟨⟨(rotate_monotonic_sequencing.1 (openLogAt 2 1) (openDiskWith ["data/segment_1.log"])
        (by decide) (by decide) (by decide)).1,
      (rotate_monotonic_sequencing.1 (openLogAt 2 1) (openDiskWith ["data/segment_1.log"])
        (by decide) (by decide) (by decide)).2.1,
      (rotate_monotonic_sequencing.1 (openLogAt 2 1) (openDiskWith ["data/segment_1.log"])
        (by decide) (by decide) (by decide)).2.2.1,
      (rotate_monotonic_sequencing.1 (openLogAt 2 1) (openDiskWith ["data/segment_1.log"])
        (by decide) (by decide) (by decide)).2.2.2 (by decide) (by decide)⟩,
    rotate_monotonic_sequencing.2 2 (openLogAt 2 1) (openDiskWith ["data/segment_1.log"])
      [1, 2, 3] (by decide) (by decide) (by decide)⟩

/-- Claim C3 as stated fails at the largest `int`: from `s = 2^63 - 1` a
successful `rotate` leaves `activeSequence = -2^63`, not `s + 1`, and the file
it creates is `segment_-9223372036854775808.log`. -/
theorem rotate_sequence_wraps :
    openOn (openLogAt 1 (2 ^ 63 - 1)) (openDiskWith []) (2 ^ 63 - 1) ∧
    (rotate (openLogAt 1 (2 ^ 63 - 1)) (openDiskWith [])).2.2 = none ∧
    (rotate (openLogAt 1 (2 ^ 63 - 1)) (openDiskWith [])).1.currentSeq = -(2 ^ 63) ∧
    (rotate (openLogAt 1 (2 ^ 63 - 1)) (openDiskWith [])).1.currentSeq ≠
      (openLogAt 1 (2 ^ 63 - 1)).currentSeq + 1 ∧
    (rotate (openLogAt 1 (2 ^ 63 - 1)) (openDiskWith [])).2.1.files =
      ["data/segment_-9223372036854775808.log"] := by
  decide

/-! ## Disk usage -/

/-- One successful rotation of a log whose segment files are numbered within
`[0, activeSequence]` leaves at most `retainedSegmentCount` segment files. -/
theorem rotate_bound (a : AOF) (fs : FS) (hR : 0 < a.totalSegments)
    (hS : a.currentSeq < maxInt)
    (hinv : ∀ q : Int, segmentPath a.directory q ∈ fs.files → 0 ≤ q ∧ q ≤ a.currentSeq)
    (hok : (rotate a fs).2.2 = none) :
    (segmentSeqs a.directory (rotate a fs).2.1.files).encard ≤ (a.totalSegments.toNat : ℕ∞) := by
  obtain ⟨_, _, _, _, hfiles, _⟩ := rotate_step a fs hok
  have hmem : ∀ q : Int, q ∈ segmentSeqs a.directory (rotate a fs).2.1.files →
      ((0 ≤ q ∧ q ≤ a.currentSeq) ∨ q = wrapInt (a.currentSeq + 1)) ∧
      ¬ (0 ≤ q ∧ q < wrapInt (wrapInt (a.currentSeq + 1) - a.totalSegments + 1)) := by
    intro q hq
    obtain ⟨h1, h2⟩ := (hfiles _).1 hq
    refine ⟨?_, ?_⟩
    · rcases h1 with h1 | h1
      · exact Or.inl (hinv q h1)
      · exact Or.inr (segmentPath_injective a.directory h1)
    · rintro ⟨h0, hlt⟩
      exact h2 q h0 hlt rfl
  by_cases hneg : a.currentSeq < 0
  · have hsub : segmentSeqs a.directory (rotate a fs).2.1.files ⊆ {wrapInt (a.currentSeq + 1)} := by
      intro q hq
      rcases (hmem q hq).1 with h | h
      · omega
      · exact h
    calc (segmentSeqs a.directory (rotate a fs).2.1.files).encard
        ≤ ({wrapInt (a.currentSeq + 1)} : Set Int).encard := Set.encard_le_card hsub
      _ = 1 := Set.encard_singleton _
      _ ≤ (a.totalSegments.toNat : ℕ∞) := by
        have : 1 ≤ a.totalSegments.toNat := by omega
        exact_mod_cast this
  · have hw : wrapInt (a.currentSeq + 1) = a.currentSeq + 1 :=
      wrapInt_of_range (by unfold minInt; omega) (by omega)
    rw [hw] at hmem
    have hsub : segmentSeqs a.directory (rotate a fs).2.1.files ⊆
        ↑(Finset.Icc (max 0 (wrapInt (a.currentSeq + 1 - a.totalSegments + 1)))
          (a.currentSeq + 1)) := by
      intro q hq
      obtain ⟨h1, h2⟩ := hmem q hq
      simp only [Finset.coe_Icc, Set.mem_Icc, max_le_iff]
      omega
    have hcard : (Finset.Icc (max 0 (wrapInt (a.currentSeq + 1 - a.totalSegments + 1)))
        (a.currentSeq + 1)).card ≤ a.totalSegments.toNat := by
      rw [Int.card_Icc]
      unfold wrapInt
      unfold maxInt at hS
      omega
    calc (segmentSeqs a.directory (rotate a fs).2.1.files).encard
        ≤ (↑(Finset.Icc (max 0 (wrapInt (a.currentSeq + 1 - a.totalSegments + 1)))
            (a.currentSeq + 1)) : Set Int).encard := Set.encard_le_card hsub
      _ = ((Finset.Icc (max 0 (wrapInt (a.currentSeq + 1 - a.totalSegments + 1)))
            (a.currentSeq + 1)).card : ℕ∞) := Set.encard_coe_eq_coe_finsetCard _
      _ ≤ (a.totalSegments.toNat : ℕ∞) := by exact_mod_cast hcard

/-- A successful rotation from a non-negative sequence number below the
largest `int` keeps every segment file numbered within
`[0, activeSequence]`. -/
theorem rotate_numbering (a : AOF) (fs : FS) (h0 : 0 ≤ a.currentSeq)
    (hS : a.currentSeq < maxInt)
    (hinv : ∀ q : Int, segmentPath a.directory q ∈ fs.files → 0 ≤ q ∧ q ≤ a.currentSeq)
    (hok : (rotate a fs).2.2 = none) :
    (rotate a fs).1.currentSeq = a.currentSeq + 1 ∧
    ∀ q : Int, segmentPath a.directory q ∈ (rotate a fs).2.1.files →
      0 ≤ q ∧ q ≤ a.currentSeq + 1 := by
  obtain ⟨_, _, hseq, _, hfiles, _⟩ := rotate_step a fs hok
  have hw : wrapInt (a.currentSeq + 1) = a.currentSeq + 1 :=
    wrapInt_of_range (by unfold minInt; omega) (by omega)
  rw [hw] at hseq hfiles
  refine ⟨hseq, ?_⟩
  intro q hq
  rcases ((hfiles _).1 hq).1 with h | h
  · have := hinv q h
    omega
  · have := segmentPath_injective a.directory h
    omega

/-- The bound of `rotate_bound` after any number of successful rotations. -/
theorem rotateN_bound : ∀ (n : Nat) (a : AOF) (fs : FS) (r : List Int × AOF × FS),
    0 < a.totalSegments → 0 ≤ a.currentSeq → a.currentSeq + n ≤ maxInt →
    (∀ q : Int, segmentPath a.directory q ∈ fs.files → 0 ≤ q ∧ q ≤ a.currentSeq) →
    (segmentSeqs a.directory fs.files).encard ≤ (a.totalSegments.toNat : ℕ∞) →
    rotateN n a fs = some r →
    (segmentSeqs a.directory r.2.2.files).encard ≤ (a.totalSegments.toNat : ℕ∞) := by
  intro n
  induction n with
  | zero =>
    intro a fs r _ _ _ _ hb h
    simp only [rotateN, Option.some.injEq] at h
    subst h
    exact hb
  | succ n ih =>
    intro a fs r hR h0 hS hinv _ h
    have hstep := rotate_step a fs
    have hbound := rotate_bound a fs hR (by push_cast at hS; omega) hinv
    have hnum := rotate_numbering a fs h0 (by push_cast at hS; omega) hinv
    rcases hr : rotate a fs with ⟨a1, fs1, e⟩
    rw [hr] at hstep hbound hnum
    cases e with
    | some e => simp [rotateN, hr] at h
    | none =>
      obtain ⟨hdir, htot, _⟩ := hstep rfl
      have hbound := hbound rfl
      obtain ⟨hnum1, hnum2⟩ := hnum rfl
      simp only at hdir htot hbound hnum1 hnum2
      rcases hn : rotateN n a1 fs1 with _ | ⟨seqs, a', fs'⟩
      · simp [rotateN, hr, hn] at h
      · simp only [rotateN, hr, hn, Option.some.injEq] at h
        subst h
        have := ih a1 fs1 _ (by rw [htot]; exact hR) (by rw [hnum1]; omega)
          (by rw [hnum1]; push_cast at hS; omega)
          (by rw [hdir, hnum1]; exact hnum2)
          (by rw [hdir, htot]; exact hbound) hn
        rw [hdir, htot] at this
        exact this

/-- Claim C4, amended: for every `retainedSegmentCount` `R > 0` and every
`activeSequence` below the largest `int`, if before a `rotate` every segment
file on disk has a sequence number in `[0, activeSequence]`, then after a
successful `rotate` at most `R` segment files are on disk; so the bound
holds after any number `N` of successful rotations that start in a directory
without segment files at a sequence number `S ≥ 0` with `S + N ≤ 2^63 - 1`. -/
theorem rotate_bounded_disk_usage :
    (∀ (a : AOF) (fs : FS), 0 < a.totalSegments → a.currentSeq < maxInt →
      (∀ q : Int, segmentPath a.directory q ∈ fs.files → 0 ≤ q ∧ q ≤ a.currentSeq) →
      (rotate a fs).2.2 = none →
      (segmentSeqs a.directory (rotate a fs).2.1.files).encard ≤
        (a.totalSegments.toNat : ℕ∞)) ∧
    (∀ (N : Nat) (a : AOF) (fs : FS) (files : List String), 0 < a.totalSegments →
      0 ≤ a.currentSeq → a.currentSeq + N ≤ maxInt →
      (∀ q : Int, segmentPath a.directory q ∉ fs.files) →
      (rotateN N a fs).map (fun r => r.2.2.files) = some files →
      (segmentSeqs a.directory files).encard ≤ (a.totalSegments.toNat : ℕ∞)) := by
  refine ⟨rotate_bound, ?_⟩
  intro N a fs files hR h0 hS hempty h
  rcases hr : rotateN N a fs with _ | r
  · simp [hr] at h
  · simp only [hr, Option.map_some', Option.some.injEq] at h
    subst h
    refine rotateN_bound N a fs r hR h0 hS ?_ ?_ hr
    · intro q hq
      exact absurd hq (hempty q)
    · have : segmentSeqs a.directory fs.files = ∅ := by
        ext q
        simp only [segmentSeqs, Set.mem_setOf_eq, Set.mem_empty_iff_false, iff_false]
        exact hempty q
      rw [this, Set.encard_empty]
      exact zero_le _

/-- With `R = 2`: a rotation from `segment_2.log` with `segment_1.log` and
`segment_2.log` on disk, and three rotations from sequence number 0 in a
directory without segment files, which leave `segment_3.log` and
`segment_2.log`. -/
theorem rotate_bounded_disk_usage_witness :
    (segmentSeqs (openLogAt 2 2).directory
        (rotate (openLogAt 2 2)
          (openDiskWith ["data/segment_1.log", "data/segment_2.log"])).2.1.files).encard ≤
      ((openLogAt 2 2).totalSegments.toNat : ℕ∞) ∧
    (segmentSeqs (openLogAt 2 0).directory
        ["data/segment_3.log", "data/segment_2.log"]).encard ≤
      ((openLogAt 2 0).totalSegments.toNat : ℕ∞) :=
  ⟨rotate_bounded_disk_usage.1 (openLogAt 2 2)
      (openDiskWith ["data/segment_1.log", "data/segment_2.log"]) (by decide) (by decide)
      (by
        intro q hq
        have hq' : segmentPath "data" q ∈ [segmentPath "data" 1, segmentPath "data" 2] := hq
        rcases List.mem_cons.1 hq' with h | h
        · have := segmentPath_injective "data" h
          subst this
          decide
        · have := segmentPath_injective "data" (List.mem_singleton.1 h)
          subst this
          decide)
      (by decide),
    rotate_bounded_disk_usage.2 3 (openLogAt 2 0) (openDiskWith [])
      ["data/segment_3.log", "data/segment_2.log"] (by decide) (by decide) (by decide)
      (by intro q hq; cases hq) (by decide)⟩

/-- Claim C4 as stated fails at the largest `int`: with `R = 1`,
`activeSequence = 2^63 - 1` and `segment_0.log`, `segment_1.log` on disk, the
rotation succeeds, the new sequence number wraps to `-2^63`, the loop of
`cleanup` does not run, and three segment files are on disk. -/
theorem rotate_disk_usage_overflow :
    0 < (openLogAt 1 (2 ^ 63 - 1)).totalSegments ∧
    (∀ q : Int, segmentPath (openLogAt 1 (2 ^ 63 - 1)).directory q ∈
        (openDiskWith ["data/segment_0.log", "data/segment_1.log"]).files →
      0 ≤ q ∧ q ≤ (openLogAt 1 (2 ^ 63 - 1)).currentSeq) ∧
    (rotate (openLogAt 1 (2 ^ 63 - 1))
      (openDiskWith ["data/segment_0.log", "data/segment_1.log"])).2.2 = none ∧
    (rotate (openLogAt 1 (2 ^ 63 - 1))
      (openDiskWith ["data/segment_0.log", "data/segment_1.log"])).2.1.files =
      ["data/segment_-9223372036854775808.log", "data/segment_0.log",
        "data/segment_1.log"] ∧
    ¬ (segmentSeqs (openLogAt 1 (2 ^ 63 - 1)).directory
        (rotate (openLogAt 1 (2 ^ 63 - 1))
          (openDiskWith ["data/segment_0.log", "data/segment_1.log"])).2.1.files).encard ≤
      ((openLogAt 1 (2 ^ 63 - 1)).totalSegments.toNat : ℕ∞) := by
  refine ⟨by decide, ?_, by decide, by decide, ?_⟩
  · intro q hq
    have hq' : segmentPath "data" q ∈ [segmentPath "data" 0, segmentPath "data" 1] := hq
    rcases List.mem_cons.1 hq' with h | h
    · have := segmentPath_injective "data" h
      subst this
      decide
    · have := segmentPath_injective "data" (List.mem_singleton.1 h)
      subst this
      decide
  · intro hle
    have hone : ((openLogAt 1 (2 ^ 63 - 1)).totalSegments.toNat : ℕ∞) = 1 := by
      have : (openLogAt 1 (2 ^ 63 - 1)).totalSegments.toNat = 1 := by decide
      rw [this]
      rfl
    rw [hone, Set.encard_le_one_iff] at hle
    have h0 : segmentPath "data" 0 ∈ (rotate (openLogAt 1 (2 ^ 63 - 1))
        (openDiskWith ["data/segment_0.log", "data/segment_1.log"])).2.1.files := by decide
    have h1 : segmentPath "data" 1 ∈ (rotate (openLogAt 1 (2 ^ 63 - 1))
        (openDiskWith ["data/segment_0.log", "data/segment_1.log"])).2.1.files := by decide
    have h01 : (0 : Int) = 1 := hle 0 1 h0 h1
    omega

end AOFly
